import Mathlib

/-!
Verification development for the pyVAMDC query-fragmentation-and-retrieval
engine (module `pyVAMDC.spectral`, files `vamdcQuery.py` and `lines.py`).

The Python source is shallowly embedded: the stateful `VamdcQuery`
constructor (HEAD probe, truncation test, recursive splitting) becomes a
pure step function plus a fuel-indexed recursion; the `getXSAMSData` retry
loop becomes a function over a stream of attempt outcomes; pandas data
frames become ordered association lists of columns; HTTP and file-system
effects become explicit traces.  Floating-point wavelength bounds are
modelled as rationals.
-/

set_option autoImplicit false

namespace PyVAMDC

/-! ## Generic string helpers (Python `in`, `str.lower`, header lookup) -/

/-- Does `needle` occur as a contiguous sublist of the second argument? -/
def charsContain (needle : List Char) : List Char → Bool
  | [] => needle.isEmpty
  | c :: cs => needle.isPrefixOf (c :: cs) || charsContain needle cs

/-- Python's substring test `sub in s`. -/
def strContains (s sub : String) : Bool :=
  charsContain sub.data s.data

/-- `str.lower()` (character-wise, as for the ASCII header and column
names handled here).  Defined over the character list so that it reduces
in the kernel. -/
def toLowerStr (s : String) : String := String.mk (s.data.map Char.toLower)

/-- `str.upper()` (character-wise). -/
def toUpperStr (s : String) : String := String.mk (s.data.map Char.toUpper)

/-- `str.startswith(pre)`. -/
def startsWithStr (s pre : String) : Bool := pre.data.isPrefixOf s.data

/-- `str.strip()`: drop whitespace from both ends. -/
def trimStr (s : String) : String :=
  String.mk (((s.data.dropWhile Char.isWhitespace).reverse.dropWhile Char.isWhitespace).reverse)

/-- Case-insensitive header lookup, as done by `requests`' header dict:
`response.headers.get(k)`.  The key `k` is given lower-cased. -/
def lookupHeaderCI (headers : List (String × String)) (k : String) : Option String :=
  (headers.find? (fun p => toLowerStr p.1 == k)).map (·.2)

/-! ## The `VamdcQuery` constructor (vamdcQuery.py, `__init__`) -/

/-- The two fixed User-Agent strings (`vamdcQuery.py` lines 77-79). -/
def USER_AGENT_QUERY_STORE : String := "VAMDC Query store"

def DEFAULT_USER_AGENT : String := "pyVAMDC v0.1"

/-- Species type flag: the Python code carries `"atom"` / `"molecule"`
strings; other values are possible and handled explicitly, so we keep the
string representation. -/
structure FragmentInput where
  nodeEndpoint : String
  lambdaMin : ℚ
  lambdaMax : ℚ
  inchiKey : String
  speciesType : String
  acceptTruncation : Bool
  deriving Repr, DecidableEq

/-- The VSS2 query string (`vamdcQuery.py` line 129). -/
def queryText (inp : FragmentInput) : String :=
  "select * where (RadTransWavelength >= " ++ toString inp.lambdaMin ++
    " AND RadTransWavelength <= " ++ toString inp.lambdaMax ++
    ") AND ((InchiKey = '" ++ inp.inchiKey ++ "'))"

/-- The full request URL `self.vamdcCall` (`vamdcQuery.py` line 130). -/
def vamdcCallOf (inp : FragmentInput) : String :=
  inp.nodeEndpoint ++ "sync?LANG=VSS2&REQUEST=doQuery&FORMAT=XSAMS&QUERY=" ++ queryText inp

/-- User-Agent used by the HEAD probe (`vamdcQuery.py` lines 133-136). -/
def headUserAgent (acceptTruncation : Bool) : String :=
  if acceptTruncation then DEFAULT_USER_AGENT else USER_AGENT_QUERY_STORE

/-- An HTTP response: status code and header list (ordered, possibly
repeated keys). -/
structure HttpResponse where
  statusCode : Nat
  headers : List (String × String)
  deriving Repr, DecidableEq

/-- One HTTP call as recorded in the effect traces. -/
inductive HttpCall where
  | headCall (url userAgent : String)
  | getCall (url userAgent : String)
  deriving Repr, DecidableEq

/-- Observable effects of the pipeline: HTTP calls and file writes. -/
inductive Effect where
  | http (c : HttpCall)
  | fileWrite (path : String)
  deriving Repr, DecidableEq

/-- `self.counts` (`vamdcQuery.py` lines 141-145): the response headers
whose lower-cased name starts with `"vamdc-"`, keyed by the lower-cased
name. -/
def countsOf (headers : List (String × String)) : List (String × String) :=
  headers.filterMap (fun p =>
    if startsWithStr (toLowerStr p.1) "vamdc-" then some (toLowerStr p.1, p.2) else none)

/-- The not-truncated test (`vamdcQuery.py` lines 150-151): header absent,
`"100"`, or `"None"`. -/
def notTruncated (headers : List (String × String)) : Bool :=
  match lookupHeaderCI headers "vamdc-truncated" with
  | none => true
  | some v => v == "100" || v == "None"

/-- The state of one `VamdcQuery` object after its constructor ran. -/
structure Fragment where
  nodeEndpoint : String
  lambdaMin : ℚ
  lambdaMax : ℚ
  inchiKey : String
  speciesType : String
  acceptTruncation : Bool
  hasData : Bool
  truncated : Option Bool
  counts : List (String × String)
  vamdcCall : String
  localUUID : String
  deriving Repr, DecidableEq

/-- Result of one constructor body run: the object's final field values,
whether `self` was appended to `totalListOfQueries`, the two child inputs
if the query was split, and the HTTP calls issued. -/
structure StepResult where
  frag : Fragment
  appended : Bool
  children : Option (FragmentInput × FragmentInput)
  calls : List HttpCall
  deriving Repr, DecidableEq

/-- One run of the `VamdcQuery.__init__` body (`vamdcQuery.py` lines
112-190) given the outcome of its single `requests.head` call.  A probe
that raises (connection failure, timeout, any exception) is the
`.error ()` case; the surrounding `try`/`except` logs and swallows it, so
the step function is total: no exception escapes the constructor. -/
def vamdcQueryStep (localUUID : String) (inp : FragmentInput)
    (probe : Except Unit HttpResponse) : StepResult :=
  let base : Fragment :=
    { nodeEndpoint := inp.nodeEndpoint
      lambdaMin := inp.lambdaMin
      lambdaMax := inp.lambdaMax
      inchiKey := inp.inchiKey
      speciesType := inp.speciesType
      acceptTruncation := inp.acceptTruncation
      hasData := false
      truncated := none
      counts := []
      vamdcCall := vamdcCallOf inp
      localUUID := localUUID }
  let probeCall := HttpCall.headCall (vamdcCallOf inp) (headUserAgent inp.acceptTruncation)
  match probe with
  | .error _ => { frag := base, appended := false, children := none, calls := [probeCall] }
  | .ok resp =>
    let counts := countsOf resp.headers
    if resp.statusCode = 200 then
      let notTrunc := notTruncated resp.headers
      let frag := { base with hasData := true, truncated := some (!notTrunc), counts := counts }
      if notTrunc || inp.acceptTruncation then
        { frag := frag, appended := true, children := none, calls := [probeCall] }
      else
        let mid : ℚ := (1/2 : ℚ) * (inp.lambdaMax + inp.lambdaMin)
        let c1 : FragmentInput := { inp with lambdaMin := inp.lambdaMin, lambdaMax := mid }
        let c2 : FragmentInput := { inp with lambdaMin := mid, lambdaMax := inp.lambdaMax }
        { frag := frag, appended := false, children := some (c1, c2), calls := [probeCall] }
    else
      { frag := { base with counts := counts }, appended := false, children := none,
        calls := [probeCall] }

/-- Probe environment: what the single HEAD request for a given fragment
input yields (`.error ()` models a raised exception). -/
def ProbeEnv : Type := FragmentInput → Except Unit HttpResponse

/-- Fuel-indexed recursion of the constructor (`vamdcQuery.py` lines
161-176): a split synchronously constructs the two children, which append
their own leaves to `totalListOfQueries` in order.  Returns
`(appended leaves, all fragments probed, effect trace)`; `none` means the
fuel ran out (the real recursion is unbounded). -/
def runInit (env : ProbeEnv) : Nat → FragmentInput →
    Option (List Fragment × List Fragment × List Effect)
  | 0, _ => none
  | fuel + 1, inp =>
    let r := vamdcQueryStep ("uuid-" ++ toString fuel) inp (env inp)
    let probeEffects := r.calls.map Effect.http
    match r.children with
    | none =>
      some ((if r.appended then [r.frag] else []), [r.frag], probeEffects)
    | some (c1, c2) => do
      let (l1, p1, e1) ← runInit env fuel c1
      let (l2, p2, e2) ← runInit env fuel c2
      some (l1 ++ l2, r.frag :: (p1 ++ p2), probeEffects ++ (e1 ++ e2))

/-! ## The fetch step `VamdcQuery.getXSAMSData` (vamdcQuery.py lines 193-261) -/

/-- Outcome of one `requests.get` attempt: a response, one of the three
transient exceptions caught by the retry loop (`ChunkedEncodingError`,
`ConnectionError`, `Timeout`), or any other exception (uncaught). -/
inductive FetchOutcome where
  | ok (resp : HttpResponse)
  | transient
  | fatal
  deriving Repr, DecidableEq

/-- `max_attempts` (`vamdcQuery.py` line 210). -/
def MAX_ATTEMPTS : Nat := 3

/-- The retry loop (`vamdcQuery.py` lines 213-241), starting at attempt
index `i` with `fuel` iterations left.  Returns the response if any
attempt succeeded, the number of GET requests issued and the sleeps
performed (`2 ** attempt` seconds, only when another attempt remains).
A `.fatal` attempt outcome re-raises out of the loop. -/
def fetchLoop (attempts : Nat → FetchOutcome) :
    Nat → Nat → Except Unit (Option HttpResponse × Nat × List Nat)
  | _, 0 => .ok (none, 0, [])
  | i, fuel + 1 =>
    match attempts i with
    | .ok resp => .ok (some resp, 1, [])
    | .fatal => .error ()
    | .transient =>
      if i < MAX_ATTEMPTS - 1 then
        match fetchLoop attempts (i + 1) fuel with
        | .ok (r, g, ws) => .ok (r, g + 1, (2 ^ i) :: ws)
        | .error e => .error e
      else
        .ok (none, 1, [])

/-- Observable result of `getXSAMSData`: the fields it sets and the
effects it performs. -/
structure FetchState where
  queryToken : Option String
  XSAMSFileName : Option String
  gets : Nat
  waits : List Nat
  effects : List Effect
  deriving Repr, DecidableEq

/-- `VamdcQuery.getXSAMSData` (`vamdcQuery.py` lines 193-261) over a
stream of attempt outcomes.  The GET runs only for a leaf
(`hasData` and (not truncated or truncation accepted)); every issued GET
carries the `DEFAULT_USER_AGENT` header (line 205).  On success the
payload is written to `QueryResults/<token-or-uuid>.xsams`; after the
retries are exhausted the fragment is marked failed
(`XSAMSFileName = none`) and the method returns normally.  An uncaught
exception inside the loop is the `.error ()` result. -/
def getXSAMSData (frag : Fragment) (attempts : Nat → FetchOutcome) :
    Except Unit FetchState :=
  if frag.hasData && (frag.truncated == some false || frag.acceptTruncation) then
    match fetchLoop attempts 0 MAX_ATTEMPTS with
    | .error e => .error e
    | .ok (queryResult, g, ws) =>
      let getEffects : List Effect :=
        List.replicate g (.http (.getCall frag.vamdcCall DEFAULT_USER_AGENT))
      match queryResult with
      | none =>
        .ok { queryToken := none, XSAMSFileName := none, gets := g, waits := ws,
              effects := getEffects }
      | some resp =>
        let token := lookupHeaderCI resp.headers "vamdc-request-token"
        let name := "QueryResults/" ++
          (match token with | some t => t | none => frag.localUUID) ++ ".xsams"
        .ok { queryToken := token, XSAMSFileName := some name, gets := g, waits := ws,
              effects := getEffects ++ [.fileWrite name] }
  else
    .ok { queryToken := none, XSAMSFileName := none, gets := 0, waits := [],
          effects := [] }

/-! ## Pandas data frames and `_harmonize_wavelength_column`
(vamdcQuery.py lines 272-444) -/

/-- A pandas data frame: an ordered list of named columns; a cell is
`none` for NaN.  Cell values are rationals (the float abstraction used
throughout this development). -/
structure DataFrame where
  cols : List (String × List (Option ℚ))
  deriving Repr, DecidableEq

namespace DataFrame

def columns (df : DataFrame) : List String := df.cols.map Prod.fst

/-- Number of rows, read off the first column (pandas data frames are
rectangular). -/
def nRows (df : DataFrame) : Nat :=
  match df.cols with
  | [] => 0
  | c :: _ => c.2.length

/-- `df.empty`: true when the frame has no columns or no rows. -/
def isEmpty (df : DataFrame) : Bool :=
  df.cols.isEmpty || df.nRows == 0

/-- All columns carry the same length (pandas invariant). -/
def Rectangular (df : DataFrame) : Prop :=
  ∀ c ∈ df.cols, c.2.length = df.nRows

def getCol (df : DataFrame) (name : String) : Option (List (Option ℚ)) :=
  (df.cols.find? (fun p => p.1 == name)).map (·.2)

/-- `df[name] = vals`: replace the column in place if present, else append
it at the end (pandas assignment). -/
def setCol (df : DataFrame) (name : String) (vals : List (Option ℚ)) : DataFrame :=
  if df.columns.contains name then
    ⟨df.cols.map (fun p => if p.1 == name then (name, vals) else p)⟩
  else
    ⟨df.cols ++ [(name, vals)]⟩

end DataFrame

/-- Does the character list hold a suffix of shape `( inner )` starting
here, with `inner` nonempty and free of `)` and the final `)` the last
character?  This is the tail condition of the regex
`\(([^)]+)\)$` (vamdcQuery.py line 289) once a `(` was consumed. -/
def parenTail (cs : List Char) : Bool :=
  cs.getLast? == some ')' && !cs.dropLast.isEmpty && !cs.dropLast.contains ')'

/-- `re.search(r'\(([^)]+)\)$', col)`: find the leftmost `(` whose
remainder matches `([^)]+)$`; return `(text before the match, inner
group)`. -/
def matchParenAtEnd : List Char → Option (List Char × List Char)
  | [] => none
  | c :: cs =>
    if c = '(' && parenTail cs then some ([], cs.dropLast)
    else (matchParenAtEnd cs).map (fun p => (c :: p.1, p.2))

/-- `parse_column_with_unit` (vamdcQuery.py lines 334-341): split
`"Name (unit)"` into the stripped base name and the stripped unit. -/
def parse_column_with_unit (col : String) : String × Option String :=
  match matchParenAtEnd col.data with
  | some (pre, inner) => (trimStr (String.mk pre), some (trimStr (String.mk inner)))
  | none => (col, none)

/-- `normalize_unit` (vamdcQuery.py lines 297-331). -/
def normalize_unit (u : String) : String :=
  if toUpperStr u == "EV" then "eV"
  else
    let ul := trimStr (toLowerStr u)
    if ul == "a" || ul == "å" || ul == "ang" then "angstrom"
    else if ul == "hz" then "hertz"
    else if ul == "m" then "meter"
    else if ul == "nm" then "nanometer"
    else if ul == "cm" then "centimeter"
    else if ul == "mm" then "millimeter"
    else if ul == "um" || ul == "μm" then "micrometer"
    else if ul == "ghz" then "gigahertz"
    else if ul == "mhz" then "megahertz"
    else if ul == "khz" then "kilohertz"
    else if ul == "thz" then "terahertz"
    else if ul == "cm-1" || ul == "cm^-1" then "cm-1"
    else ul

/-- The three spectral-position column families of the classification
loop (vamdcQuery.py lines 348-360). -/
inductive SpectralClass where
  | energy
  | wavelength
  | frequency
  deriving Repr, DecidableEq

/-- Classification of one column name (vamdcQuery.py lines 348-360):
energy/wavenumber is tested first, then wavelength, then frequency. -/
def classifyColumn (col : String) : Option SpectralClass :=
  let bl := toLowerStr (parse_column_with_unit col).1
  if strContains bl "energy" || strContains bl "wavenumber" then some .energy
  else if strContains bl "wavelength" || strContains bl "wave" || strContains bl "wl" then
    some .wavelength
  else if strContains bl "frequency" || strContains bl "freq" then some .frequency
  else none

/-- The `XXX_columns` dictionaries (vamdcQuery.py lines 344-360): column
names of a class in frame order, with their extracted units. -/
def columnsOfClass (df : DataFrame) (cl : SpectralClass) : List (String × Option String) :=
  df.columns.filterMap (fun col =>
    if classifyColumn col == some cl then some (col, (parse_column_with_unit col).2)
    else none)

/-- The external `electromagnetic_conversion(value, from_unit, to_unit)`
collaborator (energyConverter.py); `none` models a raised exception for
an unsupported unit. -/
def EmConv : Type := ℚ → String → String → Option ℚ

/-- `df[col].apply(lambda x: electromagnetic_conversion(x, u, 'meter') if
pd.notna(x) else np.nan)`: NaN cells stay NaN; a conversion exception on
any cell aborts the whole assignment (`none`). -/
def applyConv (emconv : EmConv) (u : String) (vals : List (Option ℚ)) :
    Option (List (Option ℚ)) :=
  vals.mapM (fun c =>
    match c with
    | none => some none
    | some x => (emconv x u "meter").map some)

/-- What `_harmonize_wavelength_column` logged and chose, for inspection
by the theorems. -/
structure HarmonizeLog where
  sourceColumn : Option String := none
  usedUnit : Option String := none
  warnedNoUnit : Bool := false
  placeholder : Bool := false
  deriving Repr, DecidableEq

/-- The unit finally used and whether a missing-unit warning was logged
(vamdcQuery.py lines 369-377 and analogues): the per-quantity default
with a warning when the column name carries no unit, else the normalized
unit from the name. -/
def unitAndWarned (unitOfName : Option String) (defaultUnit : String) : String × Bool :=
  match unitOfName with
  | none => (defaultUnit, true)
  | some u => (normalize_unit u, false)

/-- The conversion branch shared by the three families (vamdcQuery.py
lines 363-444): derive the final unit (default + warning when the column
name carries none), convert, and on a conversion exception fall back to
the NaN placeholder column. -/
def harmonizeUsing (emconv : EmConv) (df : DataFrame) (col : String)
    (unitOfName : Option String) (defaultUnit : String) : DataFrame × HarmonizeLog :=
  match applyConv emconv (unitAndWarned unitOfName defaultUnit).1 ((df.getCol col).getD []) with
  | some vals =>
    (df.setCol "Wavelength (m)" vals,
     { sourceColumn := some col, usedUnit := some (unitAndWarned unitOfName defaultUnit).1,
       warnedNoUnit := (unitAndWarned unitOfName defaultUnit).2 })
  | none =>
    (df.setCol "Wavelength (m)" (List.replicate df.nRows none),
     { sourceColumn := some col, usedUnit := some (unitAndWarned unitOfName defaultUnit).1,
       warnedNoUnit := (unitAndWarned unitOfName defaultUnit).2, placeholder := true })

/-- The default unit for an energy column (vamdcQuery.py lines 409-422):
`cm-1` when the base name mentions `wavenumber`, else `eV`. -/
def energyDefaultUnit (col : String) : String :=
  if strContains (toLowerStr (parse_column_with_unit col).1) "wavenumber" then "cm-1" else "eV"

/-- The body of `_harmonize_wavelength_column` after the early returns
(vamdcQuery.py lines 343-444): preference order wavelength > frequency >
energy, per-quantity default units, NaN placeholder when no spectral
column exists. -/
def harmonizeCore (emconv : EmConv) (df : DataFrame) : DataFrame × HarmonizeLog :=
  match columnsOfClass df .wavelength with
  | (col, u) :: _ => harmonizeUsing emconv df col u "angstrom"
  | [] =>
    match columnsOfClass df .frequency with
    | (col, u) :: _ => harmonizeUsing emconv df col u "hertz"
    | [] =>
      match columnsOfClass df .energy with
      | (col, u) :: _ => harmonizeUsing emconv df col u (energyDefaultUnit col)
      | [] =>
        (df.setCol "Wavelength (m)" (List.replicate df.nRows none),
         { placeholder := true })

/-- `VamdcQuery._harmonize_wavelength_column` (vamdcQuery.py lines
272-444) on `self.lines_df` (possibly `None`): return unchanged when the
frame is absent or empty (lines 283-284) or when `'Wavelength (m)'` is
already present (lines 292-294); otherwise run the derivation. -/
def harmonize_wavelength_column (emconv : EmConv) :
    Option DataFrame → Option DataFrame × HarmonizeLog
  | none => (none, {})
  | some df =>
    if df.isEmpty then (some df, {})
    else if df.columns.contains "Wavelength (m)" then (some df, {})
    else (some (harmonizeCore emconv df).1, (harmonizeCore emconv df).2)

/-! ## Aggregation (lines.py, `getLines` lines 584-637) -/

/-- The post-execution state of one query that `getLines` aggregates:
the fragment plus the optional path of its converted parquet artifact. -/
structure ProcessedQuery where
  nodeEndpoint : String
  speciesType : String
  parquetPath : Option String
  deriving Repr, DecidableEq

/-- `currentQuery.parquet_path and Path(currentQuery.parquet_path).exists()`
(lines.py line 589), for a file-existence oracle. -/
def successfullyConverted (fsExists : String → Bool) (q : ProcessedQuery) : Bool :=
  match q.parquetPath with
  | some p => fsExists p
  | none => false

/-- Append a value to a key's list in an association list, inserting the
key at the end if new: `defaultdict(list)` keyed insertion order. -/
def dictAppend (d : List (String × List String)) (k v : String) :
    List (String × List String) :=
  match d with
  | [] => [(k, [v])]
  | (k', vs) :: rest =>
    if k' = k then (k', vs ++ [v]) :: rest else (k', vs) :: dictAppend rest k v

/-- One iteration of the grouping loop (lines.py lines 588-593): a
successfully converted query of species type `kind` contributes its
parquet path under its node's key. -/
def groupStep (fsExists : String → Bool) (kind : String)
    (d : List (String × List String)) (q : ProcessedQuery) :
    List (String × List String) :=
  if successfullyConverted fsExists q && q.speciesType == kind then
    match q.parquetPath with
    | some p => dictAppend d q.nodeEndpoint p
    | none => d
  else d

/-- The grouping loop (lines.py lines 588-593): parquet paths of the
successfully converted queries of species type `kind`, grouped by node
endpoint. -/
def parquetsByNode (fsExists : String → Bool) (kind : String)
    (queries : List ProcessedQuery) : List (String × List String) :=
  queries.foldl (groupStep fsExists kind) []

/-- Ordered union of the column names of a list of frames
(first-appearance order). -/
def unionColumns (tables : List DataFrame) : List String :=
  (tables.flatMap DataFrame.columns).dedup

/-- One frame's contribution to a merged column: its own values if it has
the column, else a NaN run of its row count. -/
def colContribution (t : DataFrame) (name : String) : List (Option ℚ) :=
  match t.getCol name with
  | some vals => vals
  | none => List.replicate t.nRows none

/-- The DuckDB `read_parquet([...], union_by_name=true)` merge (lines.py
lines 615-617, 631-633): the union of the input columns by name, rows
concatenated, missing cells filled with NULL/NaN. -/
def mergeUnionByName (tables : List DataFrame) : DataFrame :=
  ⟨(unionColumns tables).map (fun name =>
      (name, tables.flatMap (fun t => colContribution t name)))⟩

/-- The per-kind aggregation loop of `getLines` (lines.py lines 608-637):
for each node appearing in the grouped parquets, merge that node's
artifacts into one.  `readParquet` is the content oracle mapping an
artifact path to its frame.  The returned association list is the
`*_results_dict` for that species kind. -/
def aggregateResults (fsExists : String → Bool) (readParquet : String → DataFrame)
    (kind : String) (queries : List ProcessedQuery) : List (String × DataFrame) :=
  (parquetsByNode fsExists kind queries).map (fun g =>
    (g.1, mergeUnionByName (g.2.map readParquet)))

/-! ## The metadata-only entry point `get_metadata_for_lines`
(lines.py lines 463-506) -/

/-- One (species, node) task of the planner: the row data that
`_create_single_head_query` (lines.py lines 241-273) reads. -/
structure SpeciesRow where
  tapEndpoint : String
  InChIKey : String
  speciesType : String
  deriving Repr, DecidableEq

/-- The root `FragmentInput` built by `_create_single_head_query`
(lines.py line 264). -/
def rootInput (lambdaMin lambdaMax : ℚ) (accept : Bool) (row : SpeciesRow) :
    FragmentInput :=
  { nodeEndpoint := row.tapEndpoint
    lambdaMin := lambdaMin
    lambdaMax := lambdaMax
    inchiKey := row.InChIKey
    speciesType := row.speciesType
    acceptTruncation := accept }

/-- `_build_and_run_wrappings` (lines.py lines 366-460), sequentialized:
each (species, node) task runs the recursive constructor and the shared
leaf list collects the results in task order (the thread pool makes the
order nondeterministic; any fixed order carries the same multiset
content).  Returns `(leaves, all probed fragments, effects)`. -/
def build_and_run_wrappings (env : ProbeEnv) (fuel : Nat)
    (lambdaMin lambdaMax : ℚ) (accept : Bool) :
    List SpeciesRow → Option (List Fragment × List Fragment × List Effect)
  | [] => some ([], [], [])
  | row :: rest => do
    let (l, p, e) ← runInit env fuel (rootInput lambdaMin lambdaMax accept row)
    let (ls, ps, es) ← build_and_run_wrappings env fuel lambdaMin lambdaMax accept rest
    some (l ++ ls, p ++ ps, e ++ es)

/-- One record of the metadata list (lines.py lines 499-504). -/
structure MetadataRecord where
  query : String
  metadata : List (String × String)
  deriving Repr, DecidableEq

/-- `get_metadata_for_lines` (lines.py lines 463-506): run the planner
with truncation acceptance forced to `True`, then report one
`{query, metadata}` record per collected query. -/
def get_metadata_for_lines (env : ProbeEnv) (fuel : Nat)
    (lambdaMin lambdaMax : ℚ) (rows : List SpeciesRow) :
    Option (List MetadataRecord × List Effect) :=
  (build_and_run_wrappings env fuel lambdaMin lambdaMax true rows).map
    (fun r => (r.1.map (fun q => ⟨q.vamdcCall, q.counts⟩), r.2.2))

/-! ## Lemmas about the constructor step -/

lemma step_frag_counts (uuid : String) (inp : FragmentInput) (r : HttpResponse) :
    (vamdcQueryStep uuid inp (.ok r)).frag.counts = countsOf r.headers := by
  by_cases h : r.statusCode = 200
  · by_cases h2 : (notTruncated r.headers || inp.acceptTruncation) = true
    · simp [vamdcQueryStep, h, h2]
    · simp [vamdcQueryStep, h, h2]
  · simp [vamdcQueryStep, h]

lemma mem_countsOf {hs : List (String × String)} {k v : String} :
    (k, v) ∈ countsOf hs ↔
      ∃ K, (K, v) ∈ hs ∧ toLowerStr K = k ∧ startsWithStr k "vamdc-" = true := by
  simp only [countsOf, List.mem_filterMap]
  constructor
  · rintro ⟨⟨K, V⟩, hmem, heq⟩
    by_cases h : startsWithStr (toLowerStr K) "vamdc-" = true
    · simp only [h, if_true, Option.some.injEq, Prod.mk.injEq] at heq
      exact ⟨K, heq.2 ▸ hmem, heq.1, heq.1 ▸ h⟩
    · simp [h] at heq
  · rintro ⟨K, hmem, hk, hpre⟩
    refine ⟨(K, v), hmem, ?_⟩
    subst hk
    simp [hpre]

lemma step_frag_truncated (uuid : String) (inp : FragmentInput) (r : HttpResponse)
    (h : r.statusCode = 200) :
    (vamdcQueryStep uuid inp (.ok r)).frag.truncated = some (!notTruncated r.headers) := by
  by_cases h2 : (notTruncated r.headers || inp.acceptTruncation) = true
  · simp [vamdcQueryStep, h, h2]
  · simp [vamdcQueryStep, h, h2]

lemma notTruncated_iff (hs : List (String × String)) :
    notTruncated hs = true ↔
      lookupHeaderCI hs "vamdc-truncated" = none ∨
      lookupHeaderCI hs "vamdc-truncated" = some "100" ∨
      lookupHeaderCI hs "vamdc-truncated" = some "None" := by
  unfold notTruncated
  rcases h : lookupHeaderCI hs "vamdc-truncated" with _ | v <;> simp [h]

/-! ## Claim theorems: the probe step -/

/-- C1: for a fragment whose probe succeeds with data (HTTP 200), the
constructor spawns children exactly when the probe reported truncation
and the acceptance flag is false; in that case the two children are
`[lower, mid]` and `[mid, upper]` with `mid = (lower+upper)/2`, inheriting
every other field of the parent, and the parent is not appended to the
output collection; otherwise no children are spawned and the parent is
appended as a leaf. -/
theorem C1_probe_split (uuid : String) (inp : FragmentInput) (resp : HttpResponse)
    (hstatus : resp.statusCode = 200) :
    ((vamdcQueryStep uuid inp (.ok resp)).children ≠ none ↔
      notTruncated resp.headers = false ∧ inp.acceptTruncation = false) ∧
    (notTruncated resp.headers = false → inp.acceptTruncation = false →
      (vamdcQueryStep uuid inp (.ok resp)).appended = false ∧
      (vamdcQueryStep uuid inp (.ok resp)).children =
        some ({ inp with lambdaMax := (inp.lambdaMin + inp.lambdaMax) / 2 },
              { inp with lambdaMin := (inp.lambdaMin + inp.lambdaMax) / 2 })) ∧
    (notTruncated resp.headers = true ∨ inp.acceptTruncation = true →
      (vamdcQueryStep uuid inp (.ok resp)).children = none ∧
      (vamdcQueryStep uuid inp (.ok resp)).appended = true) := by
  have hmid : (1/2 : ℚ) * (inp.lambdaMax + inp.lambdaMin) =
      (inp.lambdaMin + inp.lambdaMax) / 2 := by ring
  have hmid' : (2⁻¹ : ℚ) * (inp.lambdaMax + inp.lambdaMin) =
      (inp.lambdaMin + inp.lambdaMax) / 2 := by ring
  cases hnt : notTruncated resp.headers <;> cases hat : inp.acceptTruncation <;>
    simp [vamdcQueryStep, hstatus, hnt, hat, hmid, hmid']

def inpC1 : FragmentInput :=
  { nodeEndpoint := "http://node.example/tap/", lambdaMin := 10, lambdaMax := 20,
    inchiKey := "XLYOFNOQVQJJNP-UHFFFAOYSA-N", speciesType := "molecule",
    acceptTruncation := false }

def respC1 : HttpResponse :=
  ⟨200, [("VAMDC-TRUNCATED", "013"), ("VAMDC-COUNT-SPECIES", "1")]⟩

/-- Witness for C1: a truncated, non-accepted probe at bounds `[10, 20]`
splits into children at midpoint 15 and is not appended. -/
theorem C1_probe_split_witness :
    respC1.statusCode = 200 ∧
    (vamdcQueryStep "u" inpC1 (.ok respC1)).appended = false ∧
    (vamdcQueryStep "u" inpC1 (.ok respC1)).children =
      some ({ inpC1 with lambdaMax := (inpC1.lambdaMin + inpC1.lambdaMax) / 2 },
            { inpC1 with lambdaMin := (inpC1.lambdaMin + inpC1.lambdaMax) / 2 }) :=
  ⟨rfl, (C1_probe_split "u" inpC1 respC1 rfl).2.1 (by decide) rfl⟩

/-- C2: for a probe response, the fragment's count map holds exactly the
response headers whose names start with `VAMDC-` case-insensitively,
keyed by the lower-cased name (whatever the status and the leaf/internal
outcome); and on a success status the truncated flag is false exactly
when the `VAMDC-TRUNCATED` header is absent, `"None"`, or `"100"`, and
true for any other value. -/
theorem C2_truncation_and_counts (uuid : String) (inp : FragmentInput)
    (s : Nat) (hs : List (String × String)) :
    (∀ k v, (k, v) ∈ (vamdcQueryStep uuid inp (.ok ⟨s, hs⟩)).frag.counts ↔
      ∃ K, (K, v) ∈ hs ∧ toLowerStr K = k ∧ startsWithStr k "vamdc-" = true) ∧
    (s = 200 →
      ((vamdcQueryStep uuid inp (.ok ⟨s, hs⟩)).frag.truncated = some false ↔
        lookupHeaderCI hs "vamdc-truncated" = none ∨
        lookupHeaderCI hs "vamdc-truncated" = some "100" ∨
        lookupHeaderCI hs "vamdc-truncated" = some "None") ∧
      ((vamdcQueryStep uuid inp (.ok ⟨s, hs⟩)).frag.truncated = some true ↔
        ¬(lookupHeaderCI hs "vamdc-truncated" = none ∨
          lookupHeaderCI hs "vamdc-truncated" = some "100" ∨
          lookupHeaderCI hs "vamdc-truncated" = some "None"))) := by
  refine ⟨fun k v => ?_, fun hs200 => ?_⟩
  · rw [step_frag_counts]
    exact mem_countsOf
  · have ht : (vamdcQueryStep uuid inp (.ok ⟨s, hs⟩)).frag.truncated =
        some (!notTruncated hs) := step_frag_truncated uuid inp ⟨s, hs⟩ hs200
    rw [ht, ← notTruncated_iff]
    cases notTruncated hs <;> simp

/-- Witness for C2: a 200 response with a truncation marker `"013"` and a
mixed-case count header. -/
theorem C2_truncation_and_counts_witness :
    (("vamdc-count-species", "1") ∈
        (vamdcQueryStep "u" inpC1 (.ok ⟨200, respC1.headers⟩)).frag.counts ↔
      ∃ K, (K, "1") ∈ respC1.headers ∧ toLowerStr K = "vamdc-count-species" ∧
        startsWithStr "vamdc-count-species" "vamdc-" = true) ∧
    ((vamdcQueryStep "u" inpC1 (.ok ⟨200, respC1.headers⟩)).frag.truncated = some false ↔
      lookupHeaderCI respC1.headers "vamdc-truncated" = none ∨
      lookupHeaderCI respC1.headers "vamdc-truncated" = some "100" ∨
      lookupHeaderCI respC1.headers "vamdc-truncated" = some "None") :=
  ⟨(C2_truncation_and_counts "u" inpC1 200 respC1.headers).1 "vamdc-count-species" "1",
   ((C2_truncation_and_counts "u" inpC1 200 respC1.headers).2 rfl).1⟩

/-- C7: a fragment whose probe raises (transport error, timeout) or
returns a non-success status contributes nothing to the output
collection, issues its single HEAD probe with no retry, and its
constructor run completes normally (`some` result) so nothing propagates
to the caller. -/
theorem C7_probe_failure_drops (env : ProbeEnv) (n : Nat) (inp : FragmentInput)
    (h : ∀ r, env inp = .ok r → r.statusCode ≠ 200) :
    runInit env (n + 1) inp =
      some ([], [(vamdcQueryStep ("uuid-" ++ toString n) inp (env inp)).frag],
        [.http (.headCall (vamdcCallOf inp) (headUserAgent inp.acceptTruncation))]) := by
  rcases henv : env inp with e | r
  · simp [runInit, vamdcQueryStep, henv]
  · have hst := h r henv
    simp [runInit, vamdcQueryStep, henv, hst]

def envC7 : ProbeEnv := fun _ => .error ()

/-- Witness for C7: a probe that raises yields an empty leaf list, one
probed fragment, one HEAD call. -/
theorem C7_probe_failure_drops_witness :
    (∀ r, envC7 inpC1 = .ok r → r.statusCode ≠ 200) ∧
    runInit envC7 1 inpC1 =
      some ([], [(vamdcQueryStep ("uuid-" ++ toString 0) inpC1 (envC7 inpC1)).frag],
        [.http (.headCall (vamdcCallOf inpC1) (headUserAgent inpC1.acceptTruncation))]) :=
  ⟨fun _ hr => (nomatch hr), C7_probe_failure_drops envC7 0 inpC1 (fun _ hr => (nomatch hr))⟩

/-! ## Claim theorems: User-Agent headers and the fetch retry loop -/

/-- User-Agent strings of the HEAD calls in a call list. -/
def headUAs (calls : List HttpCall) : List String :=
  calls.filterMap (fun c => match c with | .headCall _ ua => some ua | _ => none)

/-- User-Agent strings of the GET calls in an effect trace. -/
def getUAs (effects : List Effect) : List String :=
  effects.filterMap (fun e =>
    match e with | .http (.getCall _ ua) => some ua | _ => none)

/-- Effect trace of a fetch result (`[]` when the fetch raised). -/
def fetchEffects : Except Unit FetchState → List Effect
  | .ok st => st.effects
  | .error _ => []

/-- Number of GET requests issued by a fetch result. -/
def fetchGets : Except Unit FetchState → Nat
  | .ok st => st.gets
  | .error _ => 0

/-- Backoff sleeps performed by a fetch result. -/
def fetchWaits : Except Unit FetchState → List Nat
  | .ok st => st.waits
  | .error _ => []

/-- `XSAMSFileName` after a fetch result (`none` when the fetch raised or
was marked failed). -/
def fetchFileName : Except Unit FetchState → Option String
  | .ok st => st.XSAMSFileName
  | .error _ => none

lemma getUAs_replicate (n : Nat) (url ua : String) :
    getUAs (List.replicate n (.http (.getCall url ua))) = List.replicate n ua := by
  induction n with
  | zero => rfl
  | succ n ih =>
    simp only [getUAs, List.replicate_succ, List.filterMap_cons] at ih ⊢
    simp only [ih]

/-- The full case analysis of the retry loop at its call site
(`fetchLoop attempts 0 MAX_ATTEMPTS`). -/
lemma fetchLoop_three (attempts : Nat → FetchOutcome) :
    fetchLoop attempts 0 MAX_ATTEMPTS =
      match attempts 0 with
      | .ok r => .ok (some r, 1, [])
      | .fatal => .error ()
      | .transient =>
        match attempts 1 with
        | .ok r => .ok (some r, 2, [1])
        | .fatal => .error ()
        | .transient =>
          match attempts 2 with
          | .ok r => .ok (some r, 3, [1, 2])
          | .fatal => .error ()
          | .transient => .ok (none, 3, [1, 2]) := by
  rcases h0 : attempts 0 <;> rcases h1 : attempts 1 <;> rcases h2 : attempts 2 <;>
    simp [fetchLoop, MAX_ATTEMPTS, h0, h1, h2]

/-- C8 (amended): the HEAD probe's User-Agent is determined by the
truncation-acceptance flag (`pyVAMDC v0.1` when accepted, `VAMDC Query
store` when not), while the GET fetch always sends `pyVAMDC v0.1`
regardless of the flag. -/
theorem C8_user_agents (uuid : String) (inp : FragmentInput)
    (probe : Except Unit HttpResponse) (frag : Fragment)
    (attempts : Nat → FetchOutcome) :
    headUAs (vamdcQueryStep uuid inp probe).calls =
      [if inp.acceptTruncation then DEFAULT_USER_AGENT else USER_AGENT_QUERY_STORE] ∧
    getUAs (fetchEffects (getXSAMSData frag attempts)) =
      List.replicate (fetchGets (getXSAMSData frag attempts)) DEFAULT_USER_AGENT := by
  constructor
  · rcases probe with e | r
    · simp [vamdcQueryStep, headUAs, headUserAgent]
    · by_cases h : r.statusCode = 200
      · by_cases h2 : (notTruncated r.headers || inp.acceptTruncation) = true <;>
          simp [vamdcQueryStep, headUAs, headUserAgent, h, h2]
      · simp [vamdcQueryStep, headUAs, headUserAgent, h]
  · unfold getXSAMSData
    by_cases hc : (frag.hasData && (frag.truncated == some false || frag.acceptTruncation)) = true
    · rw [if_pos hc]
      rcases hl : fetchLoop attempts 0 MAX_ATTEMPTS with e | ⟨r, g, ws⟩
      · cases e; simp [fetchEffects, fetchGets, getUAs]
      · rcases r with _ | resp
        · simp [fetchEffects, fetchGets, getUAs_replicate]
        · simp [fetchEffects, fetchGets]
          rw [getUAs, List.filterMap_append]
          simp [getUAs_replicate, getUAs]
    · rw [if_neg hc]
      simp [fetchEffects, fetchGets, getUAs]

def respNotTruncC8 : HttpResponse := ⟨200, [("VAMDC-TRUNCATED", "None")]⟩

def inpNoAcceptC8 : FragmentInput :=
  { nodeEndpoint := "http://node.example/tap/", lambdaMin := 10, lambdaMax := 20,
    inchiKey := "XLYOFNOQVQJJNP-UHFFFAOYSA-N", speciesType := "molecule",
    acceptTruncation := false }

/-- The leaf fragment produced by probing `inpNoAcceptC8`. -/
def fragNoAcceptC8 : Fragment :=
  (vamdcQueryStep "u-c8" inpNoAcceptC8 (.ok respNotTruncC8)).frag

def attemptsOkC8 : Nat → FetchOutcome := fun _ => .ok ⟨200, []⟩

/-- C8 (counterexample to the claim as stated): for a concrete fragment
probed with `acceptTruncation = false` and then fetched, the HEAD call
carries `VAMDC Query store` but the GET call carries `pyVAMDC v0.1` — two
different strings for the same fragment, so the GET's User-Agent is not
the flag-determined string the claim requires. -/
theorem C8_user_agents_counterexample :
    headUAs (vamdcQueryStep "u-c8" inpNoAcceptC8 (.ok respNotTruncC8)).calls =
      ["VAMDC Query store"] ∧
    getUAs (fetchEffects (getXSAMSData fragNoAcceptC8 attemptsOkC8)) = ["pyVAMDC v0.1"] ∧
    ("VAMDC Query store" : String) ≠ "pyVAMDC v0.1" := by
  refine ⟨by decide, ?_, by decide⟩
  decide

/-- Witness for C8 (amended): evaluation at the same concrete fragment. -/
theorem C8_user_agents_witness :
    headUAs (vamdcQueryStep "u-c8" inpNoAcceptC8 (.ok respNotTruncC8)).calls =
      [if inpNoAcceptC8.acceptTruncation then DEFAULT_USER_AGENT
       else USER_AGENT_QUERY_STORE] ∧
    getUAs (fetchEffects (getXSAMSData fragNoAcceptC8 attemptsOkC8)) =
      List.replicate (fetchGets (getXSAMSData fragNoAcceptC8 attemptsOkC8))
        DEFAULT_USER_AGENT :=
  C8_user_agents "u-c8" inpNoAcceptC8 (.ok respNotTruncC8) fragNoAcceptC8 attemptsOkC8

/-- C3 (amended): for a leaf fragment, the fetch issues the GET at most 3
times, retries only on transient errors (a success stops the loop at one
GET; a non-transient exception propagates unretried), the
exponential-backoff waits between attempts are 1s then 2s, and when all
three attempts fail transiently the fragment is marked failed
(`XSAMSFileName = none`) and the method returns normally. -/
theorem C3_fetch_retry (frag : Fragment) (attempts : Nat → FetchOutcome)
    (hleaf : frag.hasData = true ∧
      (frag.truncated = some false ∨ frag.acceptTruncation = true)) :
    fetchGets (getXSAMSData frag attempts) ≤ 3 ∧
    (fetchWaits (getXSAMSData frag attempts) = [] ∨
     fetchWaits (getXSAMSData frag attempts) = [1] ∨
     fetchWaits (getXSAMSData frag attempts) = [1, 2]) ∧
    (∀ r, attempts 0 = .ok r →
      fetchGets (getXSAMSData frag attempts) = 1 ∧
      fetchWaits (getXSAMSData frag attempts) = []) ∧
    (attempts 0 = .fatal → getXSAMSData frag attempts = .error ()) ∧
    (attempts 0 = .transient → attempts 1 = .transient → attempts 2 = .transient →
      getXSAMSData frag attempts =
        .ok { queryToken := none, XSAMSFileName := none, gets := 3, waits := [1, 2],
              effects :=
                List.replicate 3 (.http (.getCall frag.vamdcCall DEFAULT_USER_AGENT)) }) := by
  have hcond : (frag.hasData && (frag.truncated == some false || frag.acceptTruncation))
      = true := by
    rcases hleaf with ⟨h1, h2 | h2⟩ <;> simp [h1, h2]
  unfold getXSAMSData
  rw [if_pos hcond, fetchLoop_three]
  rcases h0 : attempts 0 with r0 | _ | _ <;> rcases h1 : attempts 1 with r1 | _ | _ <;>
    rcases h2 : attempts 2 with r2 | _ | _ <;>
      simp [fetchGets, fetchWaits, h0, h1, h2]

def fragLeafC3 : Fragment :=
  { nodeEndpoint := "http://node.example/tap/", lambdaMin := 10, lambdaMax := 20,
    inchiKey := "XLYOFNOQVQJJNP-UHFFFAOYSA-N", speciesType := "atom",
    acceptTruncation := false, hasData := true, truncated := some false, counts := [],
    vamdcCall := "http://node.example/tap/sync?LANG=VSS2", localUUID := "uuid-c3" }

def allTransientC3 : Nat → FetchOutcome := fun _ => .transient

/-- C3 (counterexample to the claim as stated): when every attempt fails
transiently, the waits actually performed between the three attempts are
`[1, 2]` — no 4-second wait ever occurs, contrary to the claimed
"1s, 2s, 4s" schedule — while the fragment is indeed marked failed. -/
theorem C3_fetch_retry_counterexample :
    fetchWaits (getXSAMSData fragLeafC3 allTransientC3) = [1, 2] ∧
    4 ∉ fetchWaits (getXSAMSData fragLeafC3 allTransientC3) ∧
    fetchFileName (getXSAMSData fragLeafC3 allTransientC3) = none := by
  decide

/-- Witness for C3 (amended): the leaf hypothesis holds at `fragLeafC3`
and the bound on issued GETs follows by applying the theorem there. -/
theorem C3_fetch_retry_witness :
    (fragLeafC3.hasData = true ∧
      (fragLeafC3.truncated = some false ∨ fragLeafC3.acceptTruncation = true)) ∧
    fetchGets (getXSAMSData fragLeafC3 allTransientC3) ≤ 3 :=
  ⟨⟨rfl, Or.inl rfl⟩, (C3_fetch_retry fragLeafC3 allTransientC3 ⟨rfl, Or.inl rfl⟩).1⟩

/-! ## Lemmas about harmonization -/

lemma setCol_cols_of_not_contains (df : DataFrame) (name : String)
    (vals : List (Option ℚ)) (h : df.columns.contains name = false) :
    (df.setCol name vals).cols = df.cols ++ [(name, vals)] := by
  have h' : name ∉ df.columns := by simpa using h
  simp [DataFrame.setCol, h']

lemma setCol_columns_of_not_contains (df : DataFrame) (name : String)
    (vals : List (Option ℚ)) (h : df.columns.contains name = false) :
    (df.setCol name vals).columns = df.columns ++ [name] := by
  simp [DataFrame.columns, setCol_cols_of_not_contains df name vals h]

lemma harmonizeUsing_eq_setCol (emconv : EmConv) (df : DataFrame) (col : String)
    (u : Option String) (d : String) :
    ∃ vals, (harmonizeUsing emconv df col u d).1 = df.setCol "Wavelength (m)" vals := by
  unfold harmonizeUsing
  rcases applyConv emconv (unitAndWarned u d).1 ((df.getCol col).getD []) with _ | v
  · exact ⟨_, rfl⟩
  · exact ⟨_, rfl⟩

lemma harmonizeCore_eq_setCol (emconv : EmConv) (df : DataFrame) :
    ∃ vals, (harmonizeCore emconv df).1 = df.setCol "Wavelength (m)" vals := by
  unfold harmonizeCore
  rcases columnsOfClass df .wavelength with _ | ⟨⟨c, u⟩, rest⟩
  · rcases columnsOfClass df .frequency with _ | ⟨⟨c, u⟩, rest⟩
    · rcases columnsOfClass df .energy with _ | ⟨⟨c, u⟩, rest⟩
      · exact ⟨_, rfl⟩
      · exact harmonizeUsing_eq_setCol emconv df c u _
    · exact harmonizeUsing_eq_setCol emconv df c u _
  · exact harmonizeUsing_eq_setCol emconv df c u _

lemma isEmpty_false_iff (df : DataFrame) :
    df.isEmpty = false ↔ df.cols ≠ [] ∧ df.nRows ≠ 0 := by
  unfold DataFrame.isEmpty
  rcases df with ⟨_ | ⟨c, cs⟩⟩ <;> simp [DataFrame.nRows]

lemma nRows_cols_append (df : DataFrame) (x : String × List (Option ℚ))
    (h : df.cols ≠ []) : (DataFrame.mk (df.cols ++ [x])).nRows = df.nRows := by
  rcases df with ⟨_ | ⟨c, cs⟩⟩
  · exact absurd rfl h
  · rfl

lemma setCol_nRows_of_not_contains (df : DataFrame) (name : String)
    (vals : List (Option ℚ)) (h : df.columns.contains name = false)
    (hcols : df.cols ≠ []) : (df.setCol name vals).nRows = df.nRows :=
  calc (df.setCol name vals).nRows
      = (DataFrame.mk ((df.setCol name vals).cols)).nRows := rfl
    _ = (DataFrame.mk (df.cols ++ [(name, vals)])).nRows := by
        rw [setCol_cols_of_not_contains df name vals h]
    _ = df.nRows := nRows_cols_append df _ hcols

lemma harmonizeCore_isEmpty_false (emconv : EmConv) (df : DataFrame)
    (hne : df.isEmpty = false)
    (hno : df.columns.contains "Wavelength (m)" = false) :
    (harmonizeCore emconv df).1.isEmpty = false := by
  obtain ⟨vals, hv⟩ := harmonizeCore_eq_setCol emconv df
  obtain ⟨hcols, hrows⟩ := (isEmpty_false_iff df).mp hne
  rw [hv, isEmpty_false_iff]
  refine ⟨?_, ?_⟩
  · rw [setCol_cols_of_not_contains df _ vals hno]
    simp
  · rw [setCol_nRows_of_not_contains df _ vals hno hcols]
    exact hrows

lemma harmonizeCore_contains (emconv : EmConv) (df : DataFrame)
    (hno : df.columns.contains "Wavelength (m)" = false) :
    (harmonizeCore emconv df).1.columns.contains "Wavelength (m)" = true := by
  obtain ⟨vals, hv⟩ := harmonizeCore_eq_setCol emconv df
  rw [hv, setCol_columns_of_not_contains df _ vals hno]
  simp

/-! ## Claim theorems: harmonization -/

/-- C10: when the converted row set is absent or has zero rows,
`_harmonize_wavelength_column` returns it unchanged — in particular the
canonical `Wavelength (m)` column is not created for empty fragments. -/
theorem C10_empty_early_return (emconv : EmConv) (df : DataFrame)
    (h : df.isEmpty = true) :
    (harmonize_wavelength_column emconv (some df)).1 = some df ∧
    (harmonize_wavelength_column emconv none).1 = none := by
  constructor
  · simp [harmonize_wavelength_column, h]
  · rfl

def emconvIdent : EmConv := fun x _ _ => some x

/-- A zero-row frame with a frequency column and no canonical column. -/
def dfEmptyC10 : DataFrame := ⟨[("Frequency (GHz)", [])]⟩

/-- Witness for C10: the zero-row frame is returned unchanged, so it
still lacks the canonical column. -/
theorem C10_empty_early_return_witness :
    dfEmptyC10.isEmpty = true ∧
    (harmonize_wavelength_column emconvIdent (some dfEmptyC10)).1 = some dfEmptyC10 :=
  ⟨rfl, (C10_empty_early_return emconvIdent dfEmptyC10 rfl).1⟩

/-- C9: harmonization is idempotent — a row set that already carries the
`Wavelength (m)` column is returned unchanged, and applying
`_harmonize_wavelength_column` twice yields the same row set as applying
it once. -/
theorem C9_harmonize_idempotent (emconv : EmConv) (df? : Option DataFrame) :
    (∀ df, df? = some df → df.columns.contains "Wavelength (m)" = true →
      (harmonize_wavelength_column emconv df?).1 = df?) ∧
    (harmonize_wavelength_column emconv
        (harmonize_wavelength_column emconv df?).1).1 =
      (harmonize_wavelength_column emconv df?).1 := by
  constructor
  · rintro df rfl hcont
    have hcont' : "Wavelength (m)" ∈ df.columns := by simpa using hcont
    by_cases he : df.isEmpty = true <;>
      simp [harmonize_wavelength_column, he, hcont']
  · rcases df? with _ | df
    · rfl
    · by_cases he : df.isEmpty = true
      · simp [harmonize_wavelength_column, he]
      · by_cases hc : "Wavelength (m)" ∈ df.columns
        · simp [harmonize_wavelength_column, he, hc]
        · have he' : df.isEmpty = false := by simp at he; exact he
          have hc' : df.columns.contains "Wavelength (m)" = false := by
            simpa using hc
          have he2 := harmonizeCore_isEmpty_false emconv df he' hc'
          have hc2 : "Wavelength (m)" ∈ (harmonizeCore emconv df).1.columns := by
            simpa using harmonizeCore_contains emconv df hc'
          simp [harmonize_wavelength_column, he, hc, he2, hc2]

lemma harmonizeUsing_log (emconv : EmConv) (df : DataFrame) (col : String)
    (u : Option String) (d : String) :
    (harmonizeUsing emconv df col u d).2.sourceColumn = some col ∧
    (harmonizeUsing emconv df col u d).2.usedUnit = some (unitAndWarned u d).1 ∧
    (harmonizeUsing emconv df col u d).2.warnedNoUnit = (unitAndWarned u d).2 := by
  unfold harmonizeUsing
  rcases applyConv emconv (unitAndWarned u d).1 ((df.getCol col).getD []) with _ | v <;>
    exact ⟨rfl, rfl, rfl⟩

lemma getCol_setCol_self (df : DataFrame) (name : String) (vals : List (Option ℚ))
    (h : df.columns.contains name = false) :
    (df.setCol name vals).getCol name = some vals := by
  have h' : name ∉ df.columns := by simpa using h
  have hnone : df.cols.find? (fun p => p.1 == name) = none := by
    rw [List.find?_eq_none]
    intro p hp hbeq
    refine h' ?_
    have hpn : p.1 = name := by simpa using hbeq
    exact hpn ▸ List.mem_map_of_mem Prod.fst hp
  rw [DataFrame.getCol, setCol_cols_of_not_contains df name vals h, List.find?_append, hnone]
  simp

/-- C5: for a non-empty converted row set without the canonical column,
harmonization appends exactly one `Wavelength (m)` column; the source is
the first wavelength-classified column, else the first
frequency-classified one, else the first energy/wavenumber-classified
one; a source column carrying no unit in its name gets the per-quantity
default (wavelength→angstrom, frequency→hertz, wavenumber→cm-1, other
energy→eV) together with a logged warning; and when no spectral-position
column exists the canonical column is created filled with NaN
placeholders instead of failing. -/
theorem C5_harmonize_derivation (emconv : EmConv) (df : DataFrame)
    (hne : df.isEmpty = false)
    (hno : df.columns.contains "Wavelength (m)" = false) :
    harmonize_wavelength_column emconv (some df) =
      (some (harmonizeCore emconv df).1, (harmonizeCore emconv df).2) ∧
    (harmonizeCore emconv df).1.columns = df.columns ++ ["Wavelength (m)"] ∧
    (∀ col u rest, columnsOfClass df .wavelength = (col, u) :: rest →
      (harmonizeCore emconv df).2.sourceColumn = some col ∧
      (u = none → (harmonizeCore emconv df).2.usedUnit = some "angstrom" ∧
        (harmonizeCore emconv df).2.warnedNoUnit = true)) ∧
    (columnsOfClass df .wavelength = [] →
      ∀ col u rest, columnsOfClass df .frequency = (col, u) :: rest →
      (harmonizeCore emconv df).2.sourceColumn = some col ∧
      (u = none → (harmonizeCore emconv df).2.usedUnit = some "hertz" ∧
        (harmonizeCore emconv df).2.warnedNoUnit = true)) ∧
    (columnsOfClass df .wavelength = [] → columnsOfClass df .frequency = [] →
      ∀ col u rest, columnsOfClass df .energy = (col, u) :: rest →
      (harmonizeCore emconv df).2.sourceColumn = some col ∧
      (u = none →
        (harmonizeCore emconv df).2.usedUnit =
          some (if strContains (toLowerStr (parse_column_with_unit col).1) "wavenumber"
            then "cm-1" else "eV") ∧
        (harmonizeCore emconv df).2.warnedNoUnit = true)) ∧
    (columnsOfClass df .wavelength = [] → columnsOfClass df .frequency = [] →
      columnsOfClass df .energy = [] →
      (harmonizeCore emconv df).2.placeholder = true ∧
      (harmonizeCore emconv df).1.getCol "Wavelength (m)" =
        some (List.replicate df.nRows none)) := by
  have hno' : "Wavelength (m)" ∉ df.columns := by simpa using hno
  refine ⟨?_, ?_, ?_, ?_, ?_, ?_⟩
  · simp [harmonize_wavelength_column, hne, hno']
  · obtain ⟨vals, hv⟩ := harmonizeCore_eq_setCol emconv df
    rw [hv, setCol_columns_of_not_contains df _ vals hno]
  · intro col u rest heq
    unfold harmonizeCore
    rw [heq]
    refine ⟨(harmonizeUsing_log emconv df col u "angstrom").1, fun hu => ?_⟩
    subst hu
    exact ⟨(harmonizeUsing_log emconv df col none "angstrom").2.1,
      (harmonizeUsing_log emconv df col none "angstrom").2.2⟩
  · intro hwl col u rest heq
    unfold harmonizeCore
    rw [hwl, heq]
    refine ⟨(harmonizeUsing_log emconv df col u "hertz").1, fun hu => ?_⟩
    subst hu
    exact ⟨(harmonizeUsing_log emconv df col none "hertz").2.1,
      (harmonizeUsing_log emconv df col none "hertz").2.2⟩
  · intro hwl hfr col u rest heq
    unfold harmonizeCore
    rw [hwl, hfr, heq]
    refine ⟨(harmonizeUsing_log emconv df col u (energyDefaultUnit col)).1, fun hu => ?_⟩
    subst hu
    refine ⟨?_, (harmonizeUsing_log emconv df col none (energyDefaultUnit col)).2.2⟩
    rw [(harmonizeUsing_log emconv df col none (energyDefaultUnit col)).2.1]
    rfl
  · intro hwl hfr hen
    unfold harmonizeCore
    rw [hwl, hfr, hen]
    exact ⟨rfl, getCol_setCol_self df _ _ hno⟩

/-- A one-row frame whose only spectral column is a unitless wavelength
column. -/
def dfC5 : DataFrame := ⟨[("Wavelength", [some 5500]), ("Einstein A", [some 1])]⟩

/-- Witness for C5: the hypotheses hold at `dfC5` and harmonization there
appends the canonical column. -/
theorem C5_harmonize_derivation_witness :
    (dfC5.isEmpty = false ∧ dfC5.columns.contains "Wavelength (m)" = false) ∧
    (harmonizeCore emconvIdent dfC5).1.columns = dfC5.columns ++ ["Wavelength (m)"] :=
  ⟨⟨rfl, by decide⟩,
   (C5_harmonize_derivation emconvIdent dfC5 rfl (by decide)).2.1⟩

/-- A one-row frame with only a unitless wavelength column. -/
def dfC9 : DataFrame := ⟨[("Wavelength", [some 5])]⟩

/-- Witness for C9: evaluation of the already-harmonized early return at
a frame carrying the canonical column, applying the theorem there. -/
theorem C9_harmonize_idempotent_witness :
    (harmonize_wavelength_column emconvIdent
      (some ⟨[("Wavelength (m)", [some 5])]⟩)).1 = some ⟨[("Wavelength (m)", [some 5])]⟩ :=
  (C9_harmonize_idempotent emconvIdent (some ⟨[("Wavelength (m)", [some 5])]⟩)).1
    ⟨[("Wavelength (m)", [some 5])]⟩ rfl (by decide)

/-! ## Lemmas for the metadata-only entry point -/

lemma step_calls_eq (uuid : String) (inp : FragmentInput)
    (probe : Except Unit HttpResponse) :
    (vamdcQueryStep uuid inp probe).calls =
      [.headCall (vamdcCallOf inp) (headUserAgent inp.acceptTruncation)] := by
  rcases probe with e | r
  · rfl
  · by_cases hs : r.statusCode = 200
    · by_cases h2 : (notTruncated r.headers || inp.acceptTruncation) = true <;>
        simp [vamdcQueryStep, hs, h2]
    · simp [vamdcQueryStep, hs]

lemma step_frag_acceptTruncation (uuid : String) (inp : FragmentInput)
    (probe : Except Unit HttpResponse) :
    (vamdcQueryStep uuid inp probe).frag.acceptTruncation = inp.acceptTruncation := by
  rcases probe with e | r
  · rfl
  · by_cases hs : r.statusCode = 200
    · by_cases h2 : (notTruncated r.headers || inp.acceptTruncation) = true <;>
        simp [vamdcQueryStep, hs, h2]
    · simp [vamdcQueryStep, hs]

lemma step_accept_no_children (uuid : String) (inp : FragmentInput)
    (probe : Except Unit HttpResponse) (h : inp.acceptTruncation = true) :
    (vamdcQueryStep uuid inp probe).children = none ∧
    (vamdcQueryStep uuid inp probe).appended =
      (vamdcQueryStep uuid inp probe).frag.hasData := by
  rcases probe with e | r
  · exact ⟨rfl, rfl⟩
  · by_cases hs : r.statusCode = 200
    · simp [vamdcQueryStep, hs, h]
    · simp [vamdcQueryStep, hs]

lemma runInit_accept (env : ProbeEnv) (n : Nat) (inp : FragmentInput)
    (h : inp.acceptTruncation = true) :
    runInit env (n + 1) inp =
      some ((if (vamdcQueryStep ("uuid-" ++ toString n) inp (env inp)).frag.hasData
              then [(vamdcQueryStep ("uuid-" ++ toString n) inp (env inp)).frag] else []),
        [(vamdcQueryStep ("uuid-" ++ toString n) inp (env inp)).frag],
        [.http (.headCall (vamdcCallOf inp) (headUserAgent inp.acceptTruncation))]) := by
  obtain ⟨hch, happ⟩ := step_accept_no_children ("uuid-" ++ toString n) inp (env inp) h
  unfold runInit
  dsimp only
  rw [hch]
  simp only [happ, step_calls_eq, List.map_cons, List.map_nil]

/-- C4: the metadata-only entry point probes with truncation acceptance
forced to `true`, so no fragment ever splits (one probed fragment per
(species, node) task, none internal); it returns one `{query, counts}`
record per collected fragment, every fragment with data is collected,
and its effect trace holds no file write at all. -/
theorem C4_metadata_only (env : ProbeEnv) (n : Nat) (lambdaMin lambdaMax : ℚ)
    (rows : List SpeciesRow) :
    ∃ leaves probed effects,
      build_and_run_wrappings env (n + 1) lambdaMin lambdaMax true rows =
        some (leaves, probed, effects) ∧
      get_metadata_for_lines env (n + 1) lambdaMin lambdaMax rows =
        some (leaves.map (fun q => ⟨q.vamdcCall, q.counts⟩), effects) ∧
      (∀ p, Effect.fileWrite p ∉ effects) ∧
      probed.length = rows.length ∧
      (∀ q ∈ probed, q.acceptTruncation = true) ∧
      leaves = probed.filter (fun q => q.hasData) := by
  induction rows with
  | nil =>
    exact ⟨[], [], [], rfl, rfl, by intro p hp; exact absurd hp (List.not_mem_nil _),
      rfl, by intro q hq; exact absurd hq (List.not_mem_nil _), rfl⟩
  | cons row rest ih =>
    obtain ⟨leaves, probed, effects, hbuild, _, hnw, hlen, hacc, hfil⟩ := ih
    set inp := rootInput lambdaMin lambdaMax true row with hinp
    have haccept : inp.acceptTruncation = true := rfl
    set frag := (vamdcQueryStep ("uuid-" ++ toString n) inp (env inp)).frag with hfrag
    have hrun := runInit_accept env n inp haccept
    refine ⟨(if frag.hasData then [frag] else []) ++ leaves, frag :: probed,
      .http (.headCall (vamdcCallOf inp) (headUserAgent inp.acceptTruncation)) :: effects,
      ?_, ?_, ?_, ?_, ?_, ?_⟩
    · show build_and_run_wrappings env (n + 1) lambdaMin lambdaMax true (row :: rest) = _
      rw [build_and_run_wrappings, hrun, hbuild]
      rfl
    · show (build_and_run_wrappings env (n + 1) lambdaMin lambdaMax true
        (row :: rest)).map _ = _
      rw [build_and_run_wrappings, hrun, hbuild]
      rfl
    · intro p hp
      rcases List.mem_cons.mp hp with h | h
      · exact Effect.noConfusion h
      · exact hnw p h
    · simp [hlen]
    · intro q hq
      rcases List.mem_cons.mp hq with h | h
      · rw [h, hfrag, step_frag_acceptTruncation]
        exact haccept
      · exact hacc q h
    · rw [List.filter_cons]
      by_cases hd : frag.hasData <;> simp [hd, hfil]

/-! ## Lemmas for aggregation -/

/-- Association-list lookup (Python dictionary access). -/
def dictLookup {α : Type} (d : List (String × α)) (k : String) : Option α :=
  (d.find? (fun p => p.1 == k)).map (·.2)

/-- The parquet paths one query contributes to the group of `node`. -/
def nodeContrib (fsExists : String → Bool) (kind node : String)
    (q : ProcessedQuery) : List String :=
  if successfullyConverted fsExists q && q.speciesType == kind &&
      q.nodeEndpoint == node then
    q.parquetPath.toList
  else []

/-- All parquet paths of the `(node, kind)` group, in query order. -/
def groupPaths (fsExists : String → Bool) (kind node : String)
    (queries : List ProcessedQuery) : List String :=
  queries.flatMap (nodeContrib fsExists kind node)

/-- How one grouped-lookup value grows when paths are appended. -/
def extendLookup (o : Option (List String)) (ps : List String) :
    Option (List String) :=
  match o with
  | none => if ps.isEmpty then none else some ps
  | some vs => some (vs ++ ps)

lemma dictLookup_cons_of_ne {α : Type} (pk : String) (pv : α)
    (rest : List (String × α)) (k : String) (h : ¬pk = k) :
    dictLookup ((pk, pv) :: rest) k = dictLookup rest k := by
  rw [dictLookup, List.find?_cons_of_neg _ (by simp [h]), ← dictLookup]

lemma dictLookup_dictAppend (d : List (String × List String)) (k v k' : String) :
    dictLookup (dictAppend d k v) k' =
      if k' = k then some ((dictLookup d k').getD [] ++ [v])
      else dictLookup d k' := by
  induction d with
  | nil =>
    by_cases h : k' = k
    · subst h
      simp [dictAppend, dictLookup]
    · have h2 : ¬k = k' := fun hc => h hc.symm
      simp [dictAppend, dictLookup, h, h2]
  | cons p rest ih =>
    rcases p with ⟨pk, pv⟩
    by_cases hp : pk = k
    · subst hp
      by_cases hk : k' = pk
      · subst hk
        simp [dictAppend, dictLookup]
      · have h2 : ¬pk = k' := fun hc => hk hc.symm
        simp [dictAppend, dictLookup, hk, h2]
    · by_cases hpk : pk = k'
      · subst hpk
        have hk : ¬pk = k := hp
        have hk' : ¬(pk = k) := hp
        simp [dictAppend, dictLookup, hp, hk']
      · have hred : dictLookup ((pk, pv) :: rest) k' = dictLookup rest k' := by
          rw [dictLookup, List.find?_cons_of_neg _ (by simp [hpk]), ← dictLookup]
        rw [dictAppend, if_neg hp, dictLookup,
          List.find?_cons_of_neg _ (by simp [hpk]), ← dictLookup, hred]
        exact ih

lemma extendLookup_append (o : Option (List String)) (ps1 ps2 : List String) :
    extendLookup (extendLookup o ps1) ps2 = extendLookup o (ps1 ++ ps2) := by
  rcases o with _ | vs
  · rcases ps1 with _ | ⟨x, xs⟩
    · simp [extendLookup]
    · simp [extendLookup]
  · simp [extendLookup]

lemma extendLookup_nil (o : Option (List String)) : extendLookup o [] = o := by
  rcases o with _ | vs <;> simp [extendLookup]

lemma groupStep_lookup (fsExists : String → Bool) (kind node : String)
    (d : List (String × List String)) (q : ProcessedQuery) :
    dictLookup (groupStep fsExists kind d q) node =
      extendLookup (dictLookup d node) (nodeContrib fsExists kind node q) := by
  by_cases hc : (successfullyConverted fsExists q && q.speciesType == kind) = true
  · have hparts : successfullyConverted fsExists q = true ∧
        (q.speciesType == kind) = true := by simpa using hc
    rcases hp : q.parquetPath with _ | p
    · exfalso
      have h1 := hparts.1
      rw [successfullyConverted, hp] at h1
      exact Bool.noConfusion h1
    · by_cases hn : q.nodeEndpoint = node
      · subst hn
        have hco : nodeContrib fsExists kind q.nodeEndpoint q = [p] := by
          simp [nodeContrib, hparts.1, hparts.2, hp]
        rw [groupStep, if_pos hc, hp, hco, dictLookup_dictAppend, if_pos rfl]
        rcases dictLookup d q.nodeEndpoint with _ | vs <;> simp [extendLookup]
      · have hco : nodeContrib fsExists kind node q = [] := by
          simp [nodeContrib, hn]
        rw [groupStep, if_pos hc, hp, hco, dictLookup_dictAppend,
          if_neg (fun hc2 => hn hc2.symm), extendLookup_nil]
  · have hco : nodeContrib fsExists kind node q = [] := by
      rw [nodeContrib]
      rcases h1 : successfullyConverted fsExists q <;>
        rcases h2 : (q.speciesType == kind) <;> simp_all
    rw [groupStep, if_neg hc, hco, extendLookup_nil]

lemma foldl_groupStep_lookup (fsExists : String → Bool) (kind node : String)
    (queries : List ProcessedQuery) :
    ∀ d, dictLookup (queries.foldl (groupStep fsExists kind) d) node =
      extendLookup (dictLookup d node) (groupPaths fsExists kind node queries) := by
  induction queries with
  | nil =>
    intro d
    rw [List.foldl_nil, groupPaths, List.flatMap_nil, extendLookup_nil]
  | cons q qs ih =>
    intro d
    rw [List.foldl_cons, ih, groupStep_lookup, extendLookup_append]
    rw [groupPaths, groupPaths, List.flatMap_cons]

lemma parquetsByNode_lookup (fsExists : String → Bool) (kind node : String)
    (queries : List ProcessedQuery) :
    dictLookup (parquetsByNode fsExists kind queries) node =
      if (groupPaths fsExists kind node queries).isEmpty then none
      else some (groupPaths fsExists kind node queries) := by
  rw [parquetsByNode, foldl_groupStep_lookup]
  rfl

lemma dictLookup_map_merge (readParquet : String → DataFrame)
    (d : List (String × List String)) (k : String) :
    dictLookup (d.map (fun g => (g.1, mergeUnionByName (g.2.map readParquet)))) k =
      (dictLookup d k).map (fun ps => mergeUnionByName (ps.map readParquet)) := by
  induction d with
  | nil => rfl
  | cons p rest ih =>
    rcases p with ⟨pk, pv⟩
    by_cases hp : pk = k
    · simp [dictLookup, List.find?_cons, hp]
    · simp only [List.map_cons]
      rw [dictLookup_cons_of_ne pk _ _ k hp, dictLookup_cons_of_ne pk pv rest k hp]
      exact ih

lemma mergeUnionByName_columns (tables : List DataFrame) :
    (mergeUnionByName tables).columns = unionColumns tables := by
  rw [mergeUnionByName, DataFrame.columns]
  show List.map _ (List.map _ (unionColumns tables)) = unionColumns tables
  rw [List.map_map]
  exact List.map_id' (unionColumns tables)

lemma colContribution_length (t : DataFrame) (name : String)
    (hr : t.Rectangular) : (colContribution t name).length = t.nRows := by
  rw [colContribution]
  rcases h : t.getCol name with _ | vals
  · simp
  · rw [DataFrame.getCol] at h
    rcases hf : t.cols.find? (fun p => p.1 == name) with _ | p
    · rw [hf] at h
      exact Option.noConfusion h
    · rw [hf] at h
      have hmem : p ∈ t.cols := List.mem_of_find?_eq_some hf
      have hlen := hr p hmem
      have h2 : p.2 = vals := by simpa using h
      rw [← h2, hlen]

/-! ## Claim theorem: aggregation -/

/-- C6: aggregation groups exactly the successfully converted fragments
(those whose converted artifact exists) by node for the given species
kind; a node with zero successful fragments is absent from the result
dictionary; each present node maps to the union-by-name merge of its
group's artifacts, whose columns are the union of the group's columns and
whose every column holds the sum of the group's row counts. -/
theorem C6_aggregation (fsExists : String → Bool) (readParquet : String → DataFrame)
    (kind : String) (queries : List ProcessedQuery) (node : String)
    (hwf : ∀ p : String, (readParquet p).Rectangular) :
    dictLookup (aggregateResults fsExists readParquet kind queries) node =
      (if (groupPaths fsExists kind node queries).isEmpty then none
       else some (mergeUnionByName
         ((groupPaths fsExists kind node queries).map readParquet))) ∧
    ((groupPaths fsExists kind node queries).isEmpty = true ↔
      ∀ q ∈ queries, ¬(successfullyConverted fsExists q = true ∧
        q.speciesType = kind ∧ q.nodeEndpoint = node)) ∧
    (∀ name, name ∈ (mergeUnionByName
        ((groupPaths fsExists kind node queries).map readParquet)).columns ↔
      ∃ p ∈ groupPaths fsExists kind node queries, name ∈ (readParquet p).columns) ∧
    (∀ c ∈ (mergeUnionByName
        ((groupPaths fsExists kind node queries).map readParquet)).cols,
      c.2.length =
        ((groupPaths fsExists kind node queries).map
          (fun p => (readParquet p).nRows)).sum) := by
  refine ⟨?_, ?_, ?_, ?_⟩
  · rw [aggregateResults, dictLookup_map_merge, parquetsByNode_lookup]
    by_cases h : (groupPaths fsExists kind node queries).isEmpty <;> simp [h]
  · rw [List.isEmpty_iff, groupPaths, List.flatMap_eq_nil_iff]
    constructor
    · intro h q hq hcond
      have := h q hq
      rw [nodeContrib, if_pos (by simp [hcond.1, hcond.2.1, hcond.2.2])] at this
      rcases hp : q.parquetPath with _ | p
      · rw [successfullyConverted, hp] at hcond
        exact Bool.noConfusion hcond.1
      · rw [hp] at this
        exact List.noConfusion this
    · intro h q hq
      rw [nodeContrib]
      by_cases hc : (successfullyConverted fsExists q && q.speciesType == kind &&
          q.nodeEndpoint == node) = true
      · exfalso
        refine h q hq ?_
        rw [Bool.and_eq_true, Bool.and_eq_true] at hc
        exact ⟨hc.1.1, by simpa using hc.1.2, by simpa using hc.2⟩
      · simp [hc]
  · intro name
    rw [mergeUnionByName_columns, unionColumns]
    simp only [List.mem_dedup, List.mem_flatMap, List.mem_map]
    constructor
    · rintro ⟨t, ⟨p, hp, rfl⟩, hname⟩
      exact ⟨p, hp, hname⟩
    · rintro ⟨p, hp, hname⟩
      exact ⟨readParquet p, ⟨p, hp, rfl⟩, hname⟩
  · intro c hc
    rw [mergeUnionByName] at hc
    simp only [List.mem_map] at hc
    obtain ⟨name, _, rfl⟩ := hc
    simp only [List.length_flatMap, List.map_map]
    congr 1
    refine List.map_congr_left ?_
    intro p _
    exact colContribution_length (readParquet p) name (hwf p)

def queriesC6 : List ProcessedQuery :=
  [⟨"nodeA", "atom", some "p1"⟩, ⟨"nodeA", "atom", some "p2"⟩,
   ⟨"nodeB", "molecule", some "p3"⟩, ⟨"nodeA", "atom", none⟩]

def fsExistsC6 : String → Bool := fun _ => true

def readParquetC6 : String → DataFrame := fun p =>
  if p = "p1" then ⟨[("Wavelength (m)", [some 1]), ("Extra", [some 2])]⟩
  else ⟨[("Wavelength (m)", [some 3])]⟩

lemma rectC6 : ∀ p : String, (readParquetC6 p).Rectangular := by
  intro p
  rw [readParquetC6]
  by_cases hp : p = "p1"
  · rw [if_pos hp]
    intro c hc
    fin_cases hc <;> rfl
  · rw [if_neg hp]
    intro c hc
    fin_cases hc
    rfl

/-- Witness for C6: at a concrete batch, the atomic group of `nodeA`
holds the merge of its two successful artifacts, and `nodeB` (with no
successful atomic fragment) is absent from the atomic dictionary. -/
theorem C6_aggregation_witness :
    dictLookup (aggregateResults fsExistsC6 readParquetC6 "atom" queriesC6) "nodeA" =
      some (mergeUnionByName
        ((groupPaths fsExistsC6 "atom" "nodeA" queriesC6).map readParquetC6)) ∧
    dictLookup (aggregateResults fsExistsC6 readParquetC6 "atom" queriesC6) "nodeB" =
      none := by
  have h1 := (C6_aggregation fsExistsC6 readParquetC6 "atom" queriesC6 "nodeA" rectC6).1
  have h2 := (C6_aggregation fsExistsC6 readParquetC6 "atom" queriesC6 "nodeB" rectC6).1
  constructor
  · rw [h1, if_neg (by decide)]
  · rw [h2, if_pos (by decide)]

end PyVAMDC
